import Mathlib

set_option maxRecDepth 4000

/-!
Shallow embedding of the serial protocol engine of
`src/src-tauri/src/serial.rs` (a desktop app talking to an ESP32 over a
serial port).

Modelling conventions:
* Text is modelled as `String` (a list of characters); the wire traffic in
  this protocol is ASCII, so one character stands for one byte and Rust's
  byte lengths (`str::len`) coincide with character counts.
* Rust string primitives (`trim`, `lines`, `split`, `contains`,
  `starts_with`, `char` takes) are re-implemented structurally over
  `List Char` so that every definition evaluates inside the kernel.
* The serial port is an external device: its behaviour during one call is
  an explicit trace of events (`WriteEvent` per chunk write, `ReadEvent`
  per read attempt).  The 15 s wall-clock deadline of the upload loop and
  the 250 ms drain window are modelled by the finiteness of those traces:
  the event list is what the port produced before the deadline expired.
* `write_all` + `flush` for one chunk are folded into a single fallible
  `WriteEvent` (both failure paths produce the same `WriteError` in the
  source).
* Fallible Rust functions returning `Result<T, SerialError>` become
  `Except SerialError T`.
-/

/-- Whitespace test used by the modelled Rust `trim` (the traffic here is
ASCII, where Rust and Lean agree on what is whitespace). -/
def isWs (c : Char) : Bool := c.isWhitespace

/-- Drop whitespace from both ends of a character list: Rust `str::trim`. -/
def trimChars (l : List Char) : List Char :=
  ((l.dropWhile isWs).reverse.dropWhile isWs).reverse

/-- Rust `str::trim` on strings. -/
def strTrim (s : String) : String := ⟨trimChars s.data⟩

/-- Rust `str::chars().take(n).collect()`. -/
def strTake (s : String) (n : Nat) : String := ⟨s.data.take n⟩

/-- Drop the first `n` characters of a string (`String::split_off`
keeping the tail). -/
def strDrop (s : String) (n : Nat) : String := ⟨s.data.drop n⟩

/-- Boolean test that `pat` is an initial run of `l`. -/
def listIsPre : List Char → List Char → Bool
  | [], _ => true
  | _ :: _, [] => false
  | a :: as, b :: bs => if a = b then listIsPre as bs else false

/-- Boolean substring test: does `pat` occur contiguously inside `l`?
Models Rust `str::contains`. -/
def listInfix (pat : List Char) : List Char → Bool
  | [] => listIsPre pat []
  | a :: tl => listIsPre pat (a :: tl) || listInfix pat tl

/-- Rust `str::contains(pat)`. -/
def strContains (s pat : String) : Bool := listInfix pat.data s.data

/-- Rust `str::starts_with(pat)`. -/
def strStartsWith (s pat : String) : Bool := listIsPre pat.data s.data

/-- Split a character list at every occurrence of `sep`, keeping empty
pieces: Rust `str::split(sep)` with a `char` pattern. -/
def splitChar (sep : Char) (l : List Char) : List (List Char) :=
  l.foldr
    (fun c acc =>
      match acc with
      | [] => [[c]]
      | cur :: rest => if c = sep then [] :: (cur :: rest) else (c :: cur) :: rest)
    [[]]

/-- Drop one trailing carriage return, if present. -/
def stripCR (l : List Char) : List Char :=
  if l.getLast? = some '\r' then l.dropLast else l

/-- Helper for `rustLines` when the text does not end in a newline: every
piece except the final one sat before a `\n` and loses a trailing `\r`;
the final piece keeps its characters as-is. -/
def rustLinesAux : List (List Char) → List (List Char)
  | [] => []
  | [last] => [last]
  | p :: rest => stripCR p :: rustLinesAux rest

/-- Rust `str::lines()`: split on `\n`, strip a `\r` left at the end of a
piece by a `\r\n` ending, no trailing empty line for a trailing newline,
and no lines at all for the empty string. -/
def rustLines (s : String) : List String :=
  if s.data = [] then []
  else if s.data.getLast? = some '\n' then
    ((splitChar '\n' s.data).dropLast.map stripCR).map (fun l => ⟨l⟩)
  else
    (rustLinesAux (splitChar '\n' s.data)).map (fun l => ⟨l⟩)

/-- Rust `u16::from_str`: optional leading `+`, one or more decimal
digits, value at most `65535`; anything else (including overflow) fails. -/
def parseU16 (l : List Char) : Option Nat :=
  let digits := match l with
    | '+' :: rest => rest
    | _ => l
  if digits = [] then none
  else if digits.all Char.isDigit then
    let v := digits.foldl (fun a c => a * 10 + (c.toNat - 48)) 0
    if v ≤ 65535 then some v else none
  else none

/-- Error taxonomy of `serial.rs` (`enum SerialError`).  The source has
exactly these five variants; in particular there is no variant specific
to port enumeration. -/
inductive SerialError where
  | NotConnected
  | AlreadyConnected
  | OpenError (reason : String)
  | WriteError (reason : String)
  | ReadError (reason : String)
deriving DecidableEq, Repr

/-- Display strings of `SerialError` (the `#[error(...)]` attributes of
the `thiserror` derive, which is also what the Tauri layer serialises). -/
def errorMessage : SerialError → String
  | SerialError.NotConnected => "No port connected"
  | SerialError.AlreadyConnected => "Port already connected"
  | SerialError.OpenError r => "Failed to open port: " ++ r
  | SerialError.WriteError r => "Failed to write to port: " ++ r
  | SerialError.ReadError r => "Failed to read from port: " ++ r

/-- `struct PortInfo`: one discovered port. -/
structure PortInfo where
  name : String
  port_type : String
deriving DecidableEq, Repr

/-- The `serialport::SerialPortType` classification consumed by
`list_ports`. -/
inductive PortType where
  | usb (manufacturer product : Option String)
  | bluetooth
  | pci
  | unknown
deriving DecidableEq, Repr

/-- One entry returned by the platform call `serialport::available_ports`. -/
structure RawPort where
  port_name : String
  port_type : PortType
deriving DecidableEq, Repr

/-- `struct DeviceStatus`.  `rpm` is `u16` in the source; it is kept as a
`Nat` here and the parser never produces a value above `65535`. -/
structure DeviceStatus where
  connected : Bool
  port_name : Option String
  running : Bool
  rpm : Nat
  raw_response : String
deriving DecidableEq, Repr

/-- `struct UploadResult`: the structured outcome of one config upload. -/
structure UploadResult where
  success : Bool
  bytes_sent : Nat
  chunks_sent : Nat
  raw_response : String
  config_preview : String
  error_message : Option String
deriving DecidableEq, Repr

/-- `struct SerialConnection`: the optional exclusively held port handle
plus the port name it was opened with.  The handle carries no modelled
state of its own (device behaviour is an explicit event trace), so it is
`Option Unit`. -/
structure SerialConnection where
  port : Option Unit
  port_name : Option String
deriving DecidableEq, Repr

/-- `SerialConnection::new`. -/
def SerialConnection.new : SerialConnection := { port := none, port_name := none }

/-- The human-readable classification string built by `list_ports`
(`format!("USB: {} {}", ...)` and friends). -/
def portTypeString : PortType → String
  | PortType.usb m p => "USB: " ++ m.getD "" ++ " " ++ p.getD ""
  | PortType.bluetooth => "Bluetooth"
  | PortType.pci => "PCI"
  | PortType.unknown => "Unknown"

/-- `SerialConnection::list_ports`.  The platform call
`serialport::available_ports()` is an oracle argument; on its failure the
source maps the error into `SerialError::OpenError` (there is no
enumeration-specific variant). -/
def list_ports (platform : Except String (List RawPort)) :
    Except SerialError (List PortInfo) :=
  match platform with
  | Except.error e => Except.error (SerialError.OpenError e)
  | Except.ok ports =>
      Except.ok (ports.map fun p => { name := p.port_name, port_type := portTypeString p.port_type })

/-- `SerialConnection::connect`.  The platform `open` outcome is an
oracle argument; the state after the call is returned alongside the
`Result`.  The already-connected check happens before anything else, so a
failed second open leaves the state untouched. -/
def connect (conn : SerialConnection) (pname : String)
    (openResult : Except String Unit) : SerialConnection × Except SerialError Unit :=
  if conn.port.isSome then (conn, Except.error SerialError.AlreadyConnected)
  else
    match openResult with
    | Except.error e => (conn, Except.error (SerialError.OpenError e))
    | Except.ok _ => ({ port := some (), port_name := some pname }, Except.ok ())

/-- `SerialConnection::disconnect`. -/
def disconnect (conn : SerialConnection) : SerialConnection × Except SerialError Unit :=
  if conn.port.isNone then (conn, Except.error SerialError.NotConnected)
  else ({ port := none, port_name := none }, Except.ok ())

/-- `SerialConnection::is_connected`. -/
def is_connected (conn : SerialConnection) : Bool := conn.port.isSome

/-- Outcome of one chunk write (`write_all` followed by `flush`; both
failure paths produce `SerialError::WriteError` in the source). -/
inductive WriteEvent where
  | ok
  | err (msg : String)
deriving DecidableEq, Repr

/-- Outcome of one `port.read(&mut buffer)` attempt: `data s` is
`Ok(n)` with `n > 0` delivering the lossily decoded text `s`, `empty` is
`Ok(0)`, `timedOut` is `Err` of kind `TimedOut`, and `fatal` is any other
read error. -/
inductive ReadEvent where
  | data (s : String)
  | empty
  | timedOut
  | fatal (msg : String)
deriving DecidableEq, Repr

/-- The read loop of `send_command` (serial.rs lines 147-156): keep
appending data; `Ok(0)` or a read timeout breaks the loop; any other read
error aborts the call with `ReadError`. -/
def send_command_loop : List ReadEvent → String → Except SerialError String
  | [], resp => Except.ok resp
  | ReadEvent.data s :: rest, resp => send_command_loop rest (resp ++ s)
  | ReadEvent.empty :: _, resp => Except.ok resp
  | ReadEvent.timedOut :: _, resp => Except.ok resp
  | ReadEvent.fatal m :: _, _ => Except.error (SerialError.ReadError m)

/-- `SerialConnection::send_command`: requires a connection, writes one
byte (outcome `w`), then drains the reply.  The 30 ms settle delay has no
observable effect in the model. -/
def send_command (conn : SerialConnection) (w : WriteEvent)
    (reads : List ReadEvent) : Except SerialError String :=
  match conn.port with
  | none => Except.error SerialError.NotConnected
  | some _ =>
      match w with
      | WriteEvent.err m => Except.error (SerialError.WriteError m)
      | WriteEvent.ok => send_command_loop reads ""

/-- The RPM branch of the status parser (serial.rs lines 339-345): on a
trimmed line containing `"RPM"`, the second `:`-delimited field is
trimmed and parsed as `u16`; failure leaves the field unchanged. -/
def rpmUpdate (st : DeviceStatus) (t : String) : DeviceStatus :=
  if strContains t "RPM" then
    match (splitChar ':' t.data)[1]? with
    | some f =>
        match parseU16 (trimChars f) with
        | some v => { st with rpm := v }
        | none => st
    | none => st
  else st

/-- The run-token test of the status parser
(`line.contains("RUN") || line.contains("Running")`). -/
def runTok (t : String) : Bool := strContains t "RUN" || strContains t "Running"

/-- The stop-token test of the status parser
(`line.contains("STOP") || line.contains("Stopped")`). -/
def stopTok (t : String) : Bool := strContains t "STOP" || strContains t "Stopped"

/-- One iteration of the status-parsing loop (serial.rs lines 337-352):
trim the line, try the RPM field, then set `running := true` on a
`RUN`/`Running` substring and afterwards `running := false` on a
`STOP`/`Stopped` substring. -/
def parse_status_line (st : DeviceStatus) (rawLine : String) : DeviceStatus :=
  let t := strTrim rawLine
  let st1 := rpmUpdate st t
  let st2 := if runTok t then { st1 with running := true } else st1
  if stopTok t then { st2 with running := false } else st2

/-- The parsing portion of `get_status`: fold `parse_status_line` over
the response lines, starting from the connected snapshot that keeps the
raw text verbatim. -/
def parse_status (response : String) (pname : Option String) : DeviceStatus :=
  (rustLines response).foldl parse_status_line
    { connected := true, port_name := pname, running := false, rpm := 0,
      raw_response := response }

/-- `SerialConnection::get_status`: a disconnected engine yields the
default snapshot without error; otherwise the `?` command is sent and the
reply parsed. -/
def get_status (conn : SerialConnection) (w : WriteEvent)
    (reads : List ReadEvent) : Except SerialError DeviceStatus :=
  match conn.port with
  | none =>
      Except.ok { connected := false, port_name := none, running := false, rpm := 0,
                  raw_response := "" }
  | some _ =>
      match send_command conn w reads with
      | Except.error e => Except.error e
      | Except.ok response => Except.ok (parse_status response conn.port_name)

/-- Cap on the accumulated upload response (`RESPONSE_CAP`, 16 KiB). -/
def RESPONSE_CAP : Nat := 16 * 1024

/-- Fixed upload chunk size (`chunk_size = 64`). -/
def CHUNK_SIZE : Nat := 64

/-- The append-and-cap step of the upload response buffer (serial.rs
lines 223-229 and 256-260): append the new text, and if the result
exceeds the cap, `split_off` everything but the most recent
`RESPONSE_CAP` worth. -/
def respCap (resp chunk : String) : String :=
  let r := resp ++ chunk
  if r.length > RESPONSE_CAP then strDrop r (r.length - RESPONSE_CAP) else r

/-- One step of the sentinel scanner closure `scan_for_ack_nak`
(serial.rs lines 202-215): on each line, the trimmed text is compared
with `"ACK"` exactly, and any trimmed line starting with `"NAK:"`
replaces the captured NAK line. -/
def scanStep (acc : Bool × Option String) (line : String) : Bool × Option String :=
  let t := strTrim line
  (if t = "ACK" then true else acc.1,
   if strStartsWith t "NAK:" then some t else acc.2)

/-- The sentinel scanner closure of `send_config`: fold `scanStep` over
all lines of the buffer, starting from no-ACK / no-NAK. -/
def scan_for_ack_nak (s : String) : Bool × Option String :=
  (rustLines s).foldl scanStep (false, none)

/-- Fuel-driven worker for `chunksOf` (structural recursion so the
kernel can evaluate it; the fuel is the list length, always enough). -/
def chunksGo : Nat → List Char → List (List Char)
  | 0, _ => []
  | _ + 1, [] => []
  | fuel + 1, a :: tl => ((a :: tl).take CHUNK_SIZE) :: chunksGo fuel ((a :: tl).drop CHUNK_SIZE)

/-- Rust `slice::chunks(64)`: consecutive pieces of 64 bytes, the last
one possibly shorter, none for an empty slice. -/
def chunksOf (l : List Char) : List (List Char) := chunksGo l.length l

/-- The chunked write loop of `send_config` (serial.rs lines 182-190):
write each chunk in turn, counting chunks, aborting with the first
`WriteError`; `evs` is the trace of per-chunk outcomes (exhausted trace
means the remaining writes succeed). -/
def writeChunks : List (List Char) → List WriteEvent → Nat → Except SerialError Nat
  | [], _, sent => Except.ok sent
  | _ :: _, WriteEvent.err m :: _, _ => Except.error (SerialError.WriteError m)
  | _ :: cs, WriteEvent.ok :: rest, sent => writeChunks cs rest (sent + 1)
  | _ :: cs, [], sent => writeChunks cs [] (sent + 1)

/-- The sticky-ACK update of one polling iteration (`if ack { saw_ack =
true; }`). -/
def ackAfter (scanned : Bool × Option String) (ack : Bool) : Bool :=
  if scanned.1 then true else ack

/-- The latest-NAK update of one polling iteration (`if nak.is_some() {
nak_line = nak; }`). -/
def nakAfter (scanned : Bool × Option String) (nak : Option String) : Option String :=
  if scanned.2.isSome then scanned.2 else nak

/-- The bounded response-polling loop of `send_config` (serial.rs lines
218-248): each event is one loop iteration's read; data is appended and
capped, then the whole buffer is rescanned (ACK sticky, latest NAK wins)
and the loop breaks once either sentinel has been observed; `Ok(0)` and
read timeouts just continue; any other read error aborts the call.  The
finite event list models the 15 s deadline. -/
def readLoop : List ReadEvent → String → Bool → Option String →
    Except SerialError (String × Bool × Option String)
  | [], resp, ack, nak => Except.ok (resp, ack, nak)
  | ReadEvent.data s :: rest, resp, ack, nak =>
      let resp2 := respCap resp s
      let scanned := scan_for_ack_nak resp2
      let ack2 := ackAfter scanned ack
      let nak2 := nakAfter scanned nak
      if ack2 || nak2.isSome then Except.ok (resp2, ack2, nak2)
      else readLoop rest resp2 ack2 nak2
  | ReadEvent.empty :: rest, resp, ack, nak => readLoop rest resp ack nak
  | ReadEvent.timedOut :: rest, resp, ack, nak => readLoop rest resp ack nak
  | ReadEvent.fatal m :: _, _, _, _ => Except.error (SerialError.ReadError m)

/-- The post-ACK drain loop of `send_config` (serial.rs lines 251-268):
keep appending and capping trailing data; a read timeout or any read
error merely stops the drain.  The finite event list models the 250 ms
window. -/
def drainLoop : List ReadEvent → String → String
  | [], resp => resp
  | ReadEvent.data s :: rest, resp => drainLoop rest (respCap resp s)
  | ReadEvent.empty :: rest, resp => drainLoop rest resp
  | ReadEvent.timedOut :: _, resp => resp
  | ReadEvent.fatal _ :: _, resp => resp

/-- The timeout failure message of `send_config`. -/
def noResponseMsg : String :=
  "No response from ESP32 - config may not have been applied (timeout)"

/-- The missing-ACK failure message of `send_config`, carrying a preview
of the collected response. -/
def noAckMsg (preview : String) : String :=
  "No ACK received. Response preview: " ++ preview

/-- The outcome classification at the end of `send_config` (serial.rs
lines 270-314), in source order: empty/whitespace-only response is the
timeout failure; else a captured NAK line is returned verbatim as the
failure message; else a missing ACK fails with a 300-character preview of
the response; else success. -/
def classifyOutcome (bytes_sent chunks_sent : Nat) (config_preview response : String)
    (saw_ack : Bool) (nak_line : Option String) : UploadResult :=
  if strTrim response = "" then
    { success := false, bytes_sent, chunks_sent, raw_response := response,
      config_preview, error_message := some noResponseMsg }
  else
    match nak_line with
    | some line =>
        { success := false, bytes_sent, chunks_sent, raw_response := response,
          config_preview, error_message := some line }
    | none =>
        if saw_ack then
          { success := true, bytes_sent, chunks_sent, raw_response := response,
            config_preview, error_message := none }
        else
          { success := false, bytes_sent, chunks_sent, raw_response := response,
            config_preview,
            error_message := some (noAckMsg (strTake response 300)) }

/-- The device-interaction trace of one `send_config` call: per-chunk
write outcomes, the main polling loop's reads, and the post-ACK drain's
reads. -/
structure UploadEnv where
  writes : List WriteEvent
  reads : List ReadEvent
  drainReads : List ReadEvent
deriving Repr

/-- The connected body of `send_config` (serial.rs lines 164-314): build
the 500-character preview, frame the payload as
`<CFG>\n{config}\n<END>\n`, write it in 64-byte chunks, poll for the
sentinels, drain briefly after an ACK, and classify the outcome.  The
best-effort input clear (line 168) has no observable effect in the
model. -/
def sendConfigBody (env : UploadEnv) (config : String) : Except SerialError UploadResult :=
  let full_message := "<CFG>\n" ++ config ++ "\n<END>\n"
  match writeChunks (chunksOf full_message.data) env.writes 0 with
  | Except.error e => Except.error e
  | Except.ok chunks_sent =>
      match readLoop env.reads "" false none with
      | Except.error e => Except.error e
      | Except.ok (resp0, saw_ack, nak_line) =>
          Except.ok (classifyOutcome full_message.length chunks_sent
            (strTake config 500)
            (if saw_ack then drainLoop env.drainReads resp0 else resp0)
            saw_ack nak_line)

/-- `SerialConnection::send_config`: fails with `NotConnected` without a
connection, otherwise runs the upload protocol against the device trace
`env`. -/
def send_config (conn : SerialConnection) (env : UploadEnv) (config : String) :
    Except SerialError UploadResult :=
  match conn.port with
  | none => Except.error SerialError.NotConnected
  | some _ => sendConfigBody env config

/-- A connection that currently holds a port, for concrete instances. -/
def cConnected : SerialConnection := { port := some (), port_name := some "COM3" }

/-- A device trace that answers a lone `ACK` line. -/
def ackEnv : UploadEnv := { writes := [], reads := [ReadEvent.data "ACK\n"], drainReads := [] }

/-- A device trace whose very first chunk write fails. -/
def failEnv : UploadEnv :=
  { writes := [WriteEvent.err "device unplugged"], reads := [], drainReads := [] }

/-- The outcome of uploading the one-character payload `"x"` against
`ackEnv`. -/
def r0Ack : UploadResult :=
  { success := true, bytes_sent := 14, chunks_sent := 1, raw_response := "ACK\n",
    config_preview := "x", error_message := none }

/-- A 287-character payload, which frames to exactly 300 bytes. -/
def cfg287 : String := ⟨List.replicate 287 'a'⟩

/-- The outcome of uploading `cfg287` against `ackEnv`. -/
def r287 : UploadResult :=
  { success := true, bytes_sent := 300, chunks_sent := 5, raw_response := "ACK\n",
    config_preview := cfg287, error_message := none }

/-- A baseline status snapshot for concrete parsing instances. -/
def dSt : DeviceStatus :=
  { connected := true, port_name := some "COM3", running := false, rpm := 0,
    raw_response := "" }

/-- The status snapshot produced for the reply
`"STATE:RUN\nSTATE:STOP"`. -/
def st6 : DeviceStatus :=
  { connected := true, port_name := some "COM3", running := false, rpm := 0,
    raw_response := "STATE:RUN\nSTATE:STOP" }

/-- The running-flag component of one status-parsing iteration: stop
tokens are checked after run tokens, so they take precedence within a
line. -/
def stepRun (b : Bool) (l : String) : Bool :=
  if stopTok (strTrim l) then false
  else if runTok (strTrim l) then true
  else b

/-! Helper lemmas about the embedded operations. -/

theorem strDrop_data (s : String) (n : Nat) : (strDrop s n).data = s.data.drop n := rfl

theorem strDrop_length (s : String) (n : Nat) : (strDrop s n).length = s.length - n := by
  show (s.data.drop n).length = s.data.length - n
  exact List.length_drop n s.data

theorem respCap_eq_of_gt (resp chunk : String)
    (h : (resp ++ chunk).length > RESPONSE_CAP) :
    respCap resp chunk = strDrop (resp ++ chunk) ((resp ++ chunk).length - RESPONSE_CAP) := by
  unfold respCap
  dsimp only
  rw [if_pos h]

theorem respCap_eq_of_le (resp chunk : String)
    (h : ¬ (resp ++ chunk).length > RESPONSE_CAP) :
    respCap resp chunk = resp ++ chunk := by
  unfold respCap
  dsimp only
  rw [if_neg h]

/-- One append-and-cap step never leaves the buffer above the cap. -/
theorem respCap_le (resp chunk : String) : (respCap resp chunk).length ≤ RESPONSE_CAP := by
  by_cases h : (resp ++ chunk).length > RESPONSE_CAP
  · rw [respCap_eq_of_gt resp chunk h, strDrop_length]
    omega
  · rw [respCap_eq_of_le resp chunk h]
    omega

/-- One append-and-cap step only ever discards leading (oldest)
characters: the result is a suffix of the uncapped concatenation. -/
theorem respCap_suffix (resp chunk : String) :
    (respCap resp chunk).data <:+ (resp ++ chunk).data := by
  by_cases h : (resp ++ chunk).length > RESPONSE_CAP
  · rw [respCap_eq_of_gt resp chunk h, strDrop_data]
    exact List.drop_suffix _ _
  · rw [respCap_eq_of_le resp chunk h]

theorem respCap_foldl_suffix_aux :
    ∀ (reads : List String) (acc : String) (S : List Char), acc.data <:+ S →
      (List.foldl respCap acc reads).data <:+ S ++ (reads.map String.data).flatten := by
  intro reads
  induction reads with
  | nil => intro acc S h; simpa using h
  | cons r rs ih =>
      intro acc S h
      have h1 : (respCap acc r).data <:+ S ++ r.data := by
        have h2 := respCap_suffix acc r
        rw [String.data_append] at h2
        obtain ⟨p, hp⟩ := h
        refine h2.trans ⟨p, ?_⟩
        rw [← List.append_assoc, hp]
      have h4 := ih (respCap acc r) (S ++ r.data) h1
      simpa [List.append_assoc] using h4

theorem chunksGo_length :
    ∀ (fuel : Nat) (l : List Char), l.length ≤ fuel →
      (chunksGo fuel l).length = (l.length + 63) / 64 := by
  intro fuel
  induction fuel with
  | zero =>
      intro l h
      have : l = [] := List.eq_nil_of_length_eq_zero (Nat.le_zero.mp h)
      subst this
      simp [chunksGo]
  | succ n ih =>
      intro l h
      cases l with
      | nil => simp [chunksGo]
      | cons a tl =>
          simp only [chunksGo, List.length_cons]
          rw [ih ((a :: tl).drop CHUNK_SIZE)
            (by simp only [List.length_drop, List.length_cons, CHUNK_SIZE] at h ⊢; omega)]
          simp only [List.length_drop, List.length_cons, CHUNK_SIZE]
          omega

/-- `slice::chunks(64)` produces `ceil(len / 64)` chunks. -/
theorem chunksOf_length (l : List Char) : (chunksOf l).length = (l.length + 63) / 64 :=
  chunksGo_length l.length l (Nat.le_refl _)

/-- A successful chunked write counts every chunk. -/
theorem writeChunks_ok :
    ∀ (cs : List (List Char)) (evs : List WriteEvent) (n k : Nat),
      writeChunks cs evs n = Except.ok k → k = n + cs.length := by
  intro cs
  induction cs with
  | nil =>
      intro evs n k h
      simp only [writeChunks, Except.ok.injEq] at h
      simp [h]
  | cons c cs ih =>
      intro evs n k h
      cases evs with
      | nil =>
          have := ih [] (n + 1) k (by simpa [writeChunks] using h)
          simp only [List.length_cons]
          omega
      | cons e rest =>
          cases e with
          | ok =>
              have := ih rest (n + 1) k (by simpa [writeChunks] using h)
              simp only [List.length_cons]
              omega
          | err m => simp [writeChunks] at h

/-- The chunked write loop either succeeds or fails with a `WriteError`. -/
theorem writeChunks_cases :
    ∀ (cs : List (List Char)) (evs : List WriteEvent) (n : Nat),
      (∃ k, writeChunks cs evs n = Except.ok k) ∨
      (∃ m, writeChunks cs evs n = Except.error (SerialError.WriteError m)) := by
  intro cs
  induction cs with
  | nil => intro evs n; exact Or.inl ⟨n, rfl⟩
  | cons c cs ih =>
      intro evs n
      cases evs with
      | nil => simpa [writeChunks] using ih [] (n + 1)
      | cons e rest =>
          cases e with
          | ok => simpa [writeChunks] using ih rest (n + 1)
          | err m => exact Or.inr ⟨m, rfl⟩

/-- Unfolding equation of the polling loop for a data read. -/
theorem readLoop_data (s : String) (rest : List ReadEvent) (resp : String)
    (ack : Bool) (nak : Option String) :
    readLoop (ReadEvent.data s :: rest) resp ack nak =
      (if ackAfter (scan_for_ack_nak (respCap resp s)) ack
          || (nakAfter (scan_for_ack_nak (respCap resp s)) nak).isSome then
        Except.ok (respCap resp s, ackAfter (scan_for_ack_nak (respCap resp s)) ack,
          nakAfter (scan_for_ack_nak (respCap resp s)) nak)
      else
        readLoop rest (respCap resp s) (ackAfter (scan_for_ack_nak (respCap resp s)) ack)
          (nakAfter (scan_for_ack_nak (respCap resp s)) nak)) := rfl

theorem readLoop_empty (rest : List ReadEvent) (resp : String) (ack : Bool)
    (nak : Option String) :
    readLoop (ReadEvent.empty :: rest) resp ack nak = readLoop rest resp ack nak := rfl

theorem readLoop_timedOut (rest : List ReadEvent) (resp : String) (ack : Bool)
    (nak : Option String) :
    readLoop (ReadEvent.timedOut :: rest) resp ack nak = readLoop rest resp ack nak := rfl

theorem readLoop_fatal (m : String) (rest : List ReadEvent) (resp : String) (ack : Bool)
    (nak : Option String) :
    readLoop (ReadEvent.fatal m :: rest) resp ack nak =
      Except.error (SerialError.ReadError m) := rfl

/-- The polling loop either succeeds or fails with a `ReadError`. -/
theorem readLoop_cases :
    ∀ (evs : List ReadEvent) (resp : String) (a : Bool) (nk : Option String),
      (∃ t, readLoop evs resp a nk = Except.ok t) ∨
      (∃ m, readLoop evs resp a nk = Except.error (SerialError.ReadError m)) := by
  intro evs
  induction evs with
  | nil => intro resp a nk; exact Or.inl ⟨_, rfl⟩
  | cons e rest ih =>
      intro resp a nk
      cases e with
      | data s =>
          rw [readLoop_data]
          cases hbr : ackAfter (scan_for_ack_nak (respCap resp s)) a
              || (nakAfter (scan_for_ack_nak (respCap resp s)) nk).isSome with
          | true => simp only [hbr, if_true]; exact Or.inl ⟨_, rfl⟩
          | false => simp only [hbr, Bool.false_eq_true, if_false]; exact ih _ _ _
      | empty => rw [readLoop_empty]; exact ih resp a nk
      | timedOut => rw [readLoop_timedOut]; exact ih resp a nk
      | fatal m => exact Or.inr ⟨m, rfl⟩

/-- The polling loop keeps the buffer under the cap. -/
theorem readLoop_le :
    ∀ (evs : List ReadEvent) (resp : String) (a : Bool) (nk : Option String) out,
      readLoop evs resp a nk = Except.ok out →
      resp.length ≤ RESPONSE_CAP → out.1.length ≤ RESPONSE_CAP := by
  intro evs
  induction evs with
  | nil =>
      intro resp a nk out h hle
      simp only [readLoop, Except.ok.injEq] at h
      rw [← h]
      exact hle
  | cons e rest ih =>
      intro resp a nk out h hle
      cases e with
      | data s =>
          rw [readLoop_data] at h
          by_cases hbr : (ackAfter (scan_for_ack_nak (respCap resp s)) a
              || (nakAfter (scan_for_ack_nak (respCap resp s)) nk).isSome) = true
          · rw [if_pos hbr] at h
            simp only [Except.ok.injEq] at h
            rw [← h]
            exact respCap_le resp s
          · rw [if_neg hbr] at h
            exact ih _ _ _ _ h (respCap_le resp s)
      | empty => exact ih _ _ _ _ (by rw [readLoop_empty] at h; exact h) hle
      | timedOut => exact ih _ _ _ _ (by rw [readLoop_timedOut] at h; exact h) hle
      | fatal m => rw [readLoop_fatal] at h; exact absurd h (by simp)

/-- The drain loop keeps the buffer under the cap. -/
theorem drainLoop_le :
    ∀ (evs : List ReadEvent) (resp : String),
      resp.length ≤ RESPONSE_CAP → (drainLoop evs resp).length ≤ RESPONSE_CAP := by
  intro evs
  induction evs with
  | nil => intro resp h; exact h
  | cons e rest ih =>
      intro resp h
      cases e with
      | data s => exact ih _ (respCap_le resp s)
      | empty => exact ih _ h
      | timedOut => exact h
      | fatal m => exact h

theorem scan_foldl_fst :
    ∀ (ls : List String) (a : Bool) (n : Option String),
      ((List.foldl scanStep (a, n) ls).1 = true ↔
        a = true ∨ ∃ l ∈ ls, strTrim l = "ACK") := by
  intro ls
  induction ls with
  | nil => intro a n; simp
  | cons l ls ih =>
      intro a n
      rw [List.foldl_cons]
      by_cases ht : strTrim l = "ACK"
      · have hstep : scanStep (a, n) l =
            (true, if strStartsWith (strTrim l) "NAK:" then some (strTrim l) else n) := by
          simp [scanStep, ht]
        rw [hstep, ih]
        simp [ht]
      · have hstep : scanStep (a, n) l =
            (a, if strStartsWith (strTrim l) "NAK:" then some (strTrim l) else n) := by
          simp [scanStep, ht]
        rw [hstep, ih]
        simp [ht]

theorem scan_foldl_snd :
    ∀ (ls : List String) (a : Bool) (n : Option String),
      (List.foldl scanStep (a, n) ls).2 =
        Option.or (((ls.map strTrim).reverse).find? (fun t => strStartsWith t "NAK:")) n := by
  intro ls
  induction ls with
  | nil => intro a n; simp
  | cons l ls ih =>
      intro a n
      rw [List.foldl_cons]
      have hstep : scanStep (a, n) l =
          ((if strTrim l = "ACK" then true else a),
            (if strStartsWith (strTrim l) "NAK:" then some (strTrim l) else n)) := rfl
      rw [hstep, ih]
      rw [List.map_cons, List.reverse_cons, List.find?_append]
      cases hf : ((ls.map strTrim).reverse).find? (fun t => strStartsWith t "NAK:") with
      | some x => simp [Option.or]
      | none =>
          by_cases hn : strStartsWith (strTrim l) "NAK:" = true
          · simp [Option.or, List.find?, hn]
          · simp [Option.or, List.find?, hn]

theorem rpmUpdate_running (st : DeviceStatus) (t : String) :
    (rpmUpdate st t).running = st.running := by
  unfold rpmUpdate
  split
  · split
    · split
      · rfl
      · rfl
    · rfl
  · rfl

theorem rpmUpdate_raw (st : DeviceStatus) (t : String) :
    (rpmUpdate st t).raw_response = st.raw_response := by
  unfold rpmUpdate
  split
  · split
    · split
      · rfl
      · rfl
    · rfl
  · rfl

theorem parse_status_line_raw (st : DeviceStatus) (l : String) :
    (parse_status_line st l).raw_response = st.raw_response := by
  unfold parse_status_line
  dsimp only
  split
  · split
    · simp [rpmUpdate_raw]
    · simp [rpmUpdate_raw]
  · split
    · simp [rpmUpdate_raw]
    · simp [rpmUpdate_raw]

theorem parse_status_line_running (st : DeviceStatus) (l : String) :
    (parse_status_line st l).running = stepRun st.running l := by
  unfold parse_status_line stepRun
  dsimp only
  split
  · simp
  · split
    · simp
    · simp [rpmUpdate_running]

theorem parse_status_line_rpm (st : DeviceStatus) (l : String) :
    (parse_status_line st l).rpm = (rpmUpdate st (strTrim l)).rpm := by
  unfold parse_status_line
  dsimp only
  split
  · split
    · simp
    · simp
  · split
    · simp
    · simp

theorem foldl_parse_running :
    ∀ (ls : List String) (st : DeviceStatus),
      (List.foldl parse_status_line st ls).running = List.foldl stepRun st.running ls := by
  intro ls
  induction ls with
  | nil => intro st; rfl
  | cons l ls ih =>
      intro st
      rw [List.foldl_cons, List.foldl_cons, ih, parse_status_line_running]

theorem foldl_parse_raw :
    ∀ (ls : List String) (st : DeviceStatus),
      (List.foldl parse_status_line st ls).raw_response = st.raw_response := by
  intro ls
  induction ls with
  | nil => intro st; rfl
  | cons l ls ih =>
      intro st
      rw [List.foldl_cons, ih, parse_status_line_raw]

theorem parse_status_raw (resp : String) (pn : Option String) :
    (parse_status resp pn).raw_response = resp := by
  unfold parse_status
  rw [foldl_parse_raw]

theorem foldl_stepRun_const :
    ∀ (post : List String) (b : Bool),
      (∀ l2 ∈ post, runTok (strTrim l2) = false ∧ stopTok (strTrim l2) = false) →
      List.foldl stepRun b post = b := by
  intro post
  induction post with
  | nil => intro b _; rfl
  | cons l ls ih =>
      intro b h
      rw [List.foldl_cons]
      have h1 := h l (List.mem_cons_self l ls)
      have hstep : stepRun b l = b := by
        unfold stepRun
        rw [h1.2, h1.1]
        simp
      rw [hstep]
      exact ih b (fun l2 hl2 => h l2 (List.mem_cons_of_mem l hl2))

theorem parse_status_running_last (resp : String) (pn : Option String)
    (pre post : List String) (l : String)
    (hl : rustLines resp = pre ++ l :: post)
    (hm : (runTok (strTrim l) || stopTok (strTrim l)) = true)
    (hpost : ∀ l2 ∈ post, runTok (strTrim l2) = false ∧ stopTok (strTrim l2) = false) :
    (parse_status resp pn).running = (if stopTok (strTrim l) then false else true) := by
  unfold parse_status
  rw [foldl_parse_running, hl, List.foldl_append, List.foldl_cons,
    foldl_stepRun_const post _ hpost]
  unfold stepRun
  by_cases hs : stopTok (strTrim l) = true
  · rw [hs]
    simp
  · have hs0 : stopTok (strTrim l) = false := by
      cases hv : stopTok (strTrim l)
      · rfl
      · exact absurd hv hs
    have hr : runTok (strTrim l) = true := by
      rw [hs0] at hm
      simpa using hm
    rw [hs0, hr]
    simp

/-! Claim theorems. -/

/-- C4: during an upload, every append-and-cap step of the response
buffer leaves it at or below the 16 KiB cap and only drops oldest
characters (the retained text is a suffix of everything received); in
particular the folded buffer over any read sequence is a capped suffix of
the full stream, and both the polling loop and the post-ACK drain keep
the buffer capped. -/
theorem response_cap_invariant :
    (∀ resp chunk : String,
      (respCap resp chunk).length ≤ RESPONSE_CAP ∧
      (respCap resp chunk).data <:+ (resp ++ chunk).data) ∧
    (∀ reads : List String,
      (List.foldl respCap "" reads).data <:+ (reads.map String.data).flatten) ∧
    (∀ (evs : List ReadEvent) (out : String × Bool × Option String),
      readLoop evs "" false none = Except.ok out → out.1.length ≤ RESPONSE_CAP) ∧
    (∀ (evs : List ReadEvent) (resp : String),
      resp.length ≤ RESPONSE_CAP → (drainLoop evs resp).length ≤ RESPONSE_CAP) := by
  refine ⟨fun resp chunk => ⟨respCap_le resp chunk, respCap_suffix resp chunk⟩, ?_, ?_, ?_⟩
  · intro reads
    have h := respCap_foldl_suffix_aux reads "" [] (List.suffix_refl [])
    simpa using h
  · intro evs out h
    exact readLoop_le evs "" false none out h (by decide)
  · exact drainLoop_le

/-- Witness for C4's hypothesis-bearing conjunct, at the concrete
single-`ACK` read trace. -/
theorem response_cap_invariant_witness :
    (("ACK\n", true, (none : Option String)).1 : String).length ≤ RESPONSE_CAP := by
  have h := response_cap_invariant.2.2.1 [ReadEvent.data "ACK\n"]
    ("ACK\n", true, none) rfl
  exact h

/-- C5 counterexample: the scanner accepts a line that trims to `ACK`
even though no line of the text is exactly `ACK`, refuting the claim that
acknowledgment is recognized exactly on a line equal to `ACK`. -/
theorem scan_ack_trim_counterexample :
    (scan_for_ack_nak " ACK").1 = true ∧ ∀ l ∈ rustLines " ACK", ¬(l = "ACK") := by
  decide

/-- C5 amended: the scanner acknowledges exactly when some line trims to
`ACK`, and the captured NAK message is the latest trimmed line starting
with `NAK:` (so untrimmed variants of either sentinel are also
recognized). -/
theorem scan_ack_nak_characterization (s : String) :
    ((scan_for_ack_nak s).1 = true ↔ ∃ l ∈ rustLines s, strTrim l = "ACK") ∧
    (scan_for_ack_nak s).2 =
      ((rustLines s).map strTrim).reverse.find? (fun t => strStartsWith t "NAK:") := by
  constructor
  · unfold scan_for_ack_nak
    rw [scan_foldl_fst]
    simp
  · unfold scan_for_ack_nak
    rw [scan_foldl_snd]
    exact Option.or_none

/-- C8 counterexample: a failing enumeration surfaces as the
`OpenError` variant, whose display string is the open-failure message
`Failed to open port: ...`; the error type has no enumeration-specific
variant at all, so no `EnumerationFailed` error can be produced. -/
theorem list_ports_failure_counterexample :
    list_ports (Except.error "boom") = Except.error (SerialError.OpenError "boom") ∧
    errorMessage (SerialError.OpenError "boom") = "Failed to open port: boom" :=
  ⟨rfl, rfl⟩

/-- C8 amended: every platform enumeration failure surfaces as
`SerialError::OpenError` carrying the platform error string, displayed as
`Failed to open port: ...`. -/
theorem list_ports_failure_open_error (msg : String) :
    list_ports (Except.error msg) = Except.error (SerialError.OpenError msg) ∧
    errorMessage (SerialError.OpenError msg) = "Failed to open port: " ++ msg :=
  ⟨rfl, rfl⟩

/-- C9: a second `connect` while a connection is held fails with
`AlreadyConnected` and returns the connection state unchanged (the check
precedes any mutation or platform call). -/
theorem connect_already_connected (conn : SerialConnection) (pname : String)
    (openResult : Except String Unit) (h : conn.port.isSome = true) :
    connect conn pname openResult = (conn, Except.error SerialError.AlreadyConnected) := by
  unfold connect
  rw [h]
  rfl

/-- Witness for C9 at a concrete held connection. -/
theorem connect_already_connected_witness :
    connect cConnected "COM4" (Except.ok ()) =
      (cConnected, Except.error SerialError.AlreadyConnected) :=
  connect_already_connected cConnected "COM4" (Except.ok ()) rfl

/-- C10: a status line containing both a run token and a stop token
leaves `running = false`, because the stop check runs after the run
check within one iteration. -/
theorem status_line_stop_precedence (st : DeviceStatus) (line : String)
    (hrun : runTok (strTrim line) = true) (hstop : stopTok (strTrim line) = true) :
    (parse_status_line st line).running = false := by
  rw [parse_status_line_running]
  unfold stepRun
  rw [hstop]
  simp

/-- Witness for C10 at the concrete line `RUN STOP`. -/
theorem status_line_stop_precedence_witness :
    (parse_status_line dSt "RUN STOP").running = false :=
  status_line_stop_precedence dSt "RUN STOP" (by decide) (by decide)

theorem get_status_ok_inv (u : Unit) (pn : Option String) (w : WriteEvent)
    (reads : List ReadEvent) (st : DeviceStatus)
    (h : get_status ⟨some u, pn⟩ w reads = Except.ok st) :
    ∃ resp, send_command ⟨some u, pn⟩ w reads = Except.ok resp ∧
      st = parse_status resp pn := by
  unfold get_status at h
  dsimp only at h
  cases hc : send_command ⟨some u, pn⟩ w reads with
  | error e =>
      rw [hc] at h
      have h2 : (Except.error e : Except SerialError DeviceStatus) = Except.ok st := h
      exact absurd h2 (by simp)
  | ok resp =>
      rw [hc] at h
      have h2 : Except.ok (parse_status resp pn) = Except.ok st := h
      exact ⟨resp, rfl, (Except.ok.inj h2).symm⟩

/-- C6: the status parser is last-line-wins for the run/stop flag: if the
last line carrying a run or stop token has a stop token, the reported
status is not running, and otherwise it is running; later token-free
lines change nothing.  Stated over `get_status`, whose result preserves
the scanned text verbatim in `raw_response`. -/
theorem get_status_last_line_wins (conn : SerialConnection) (w : WriteEvent)
    (reads : List ReadEvent) (st : DeviceStatus) (pre post : List String) (l : String)
    (hst : get_status conn w reads = Except.ok st)
    (hl : rustLines st.raw_response = pre ++ l :: post)
    (hm : (runTok (strTrim l) || stopTok (strTrim l)) = true)
    (hpost : ∀ l2 ∈ post, runTok (strTrim l2) = false ∧ stopTok (strTrim l2) = false) :
    st.running = (if stopTok (strTrim l) then false else true) := by
  obtain ⟨p, pn⟩ := conn
  cases p with
  | none =>
      have h2 : Except.ok
          ({ connected := false, port_name := none, running := false, rpm := 0,
             raw_response := "" } : DeviceStatus) = Except.ok st := hst
      have h3 := (Except.ok.inj h2).symm
      rw [h3] at hl
      have h4 : rustLines "" = [] := rfl
      rw [h4] at hl
      cases pre with
      | nil => exact absurd hl (by simp)
      | cons x xs => exact absurd hl (by simp)
  | some u =>
      obtain ⟨resp, hc, hparse⟩ := get_status_ok_inv u pn w reads st hst
      rw [hparse] at hl ⊢
      rw [parse_status_raw] at hl
      exact parse_status_running_last resp pn pre post l hl hm hpost

/-- Witness for C6: the text `STATE:RUN` then `STATE:STOP` parses to a
non-running status. -/
theorem get_status_last_line_wins_witness : st6.running = false := by
  have h := get_status_last_line_wins cConnected WriteEvent.ok
    [ReadEvent.data "STATE:RUN\nSTATE:STOP", ReadEvent.timedOut] st6
    ["STATE:RUN"] [] "STATE:STOP" rfl (by decide) (by decide)
    (by intro l2 hl2; exact absurd hl2 (by simp))
  rw [h]
  decide

/-- C7: per status line, a line containing the case-sensitive substring
`RPM` whose second colon-delimited field parses as a `u16` sets `rpm` to
that value, and any line that offers no parseable field leaves `rpm`
unchanged; concretely, `RPM:4200` yields `rpm = 4200` through
`get_status` and `RPM:abc` leaves the zero default without error. -/
theorem get_status_rpm_parsing :
    (∀ (st : DeviceStatus) (line : String) (f : List Char) (v : Nat),
      strContains (strTrim line) "RPM" = true →
      (splitChar ':' (strTrim line).data)[1]? = some f →
      parseU16 (trimChars f) = some v →
      (parse_status_line st line).rpm = v) ∧
    (∀ (st : DeviceStatus) (line : String),
      (∀ f, strContains (strTrim line) "RPM" = true →
        (splitChar ':' (strTrim line).data)[1]? = some f →
        parseU16 (trimChars f) = none) →
      (parse_status_line st line).rpm = st.rpm) ∧
    (∃ st, get_status cConnected WriteEvent.ok
        [ReadEvent.data "RPM:4200\n", ReadEvent.timedOut] = Except.ok st ∧
      st.rpm = 4200) ∧
    (∃ st, get_status cConnected WriteEvent.ok
        [ReadEvent.data "RPM:abc\n", ReadEvent.timedOut] = Except.ok st ∧
      st.rpm = 0) := by
  refine ⟨?_, ?_, ⟨_, rfl, rfl⟩, ⟨_, rfl, rfl⟩⟩
  · intro st line f v h1 h2 h3
    rw [parse_status_line_rpm]
    unfold rpmUpdate
    rw [h1]
    simp only [if_true]
    rw [h2]
    dsimp only
    rw [h3]
  · intro st line hno
    rw [parse_status_line_rpm]
    unfold rpmUpdate
    by_cases h1 : strContains (strTrim line) "RPM" = true
    · rw [h1]
      simp only [if_true]
      cases h2 : (splitChar ':' (strTrim line).data)[1]? with
      | none => rfl
      | some f =>
          dsimp only
          rw [hno f h1 h2]
    · have h1f : strContains (strTrim line) "RPM" = false := by
        cases hv : strContains (strTrim line) "RPM"
        · rfl
        · exact absurd hv h1
      rw [h1f]
      simp

/-- Witness for C7 at the concrete line `RPM:4200`. -/
theorem get_status_rpm_parsing_witness : (parse_status_line dSt "RPM:4200").rpm = 4200 :=
  get_status_rpm_parsing.1 dSt "RPM:4200" "4200".data 4200 (by decide) (by decide) (by decide)

theorem send_config_none (pn : Option String) (env : UploadEnv) (config : String) :
    send_config ⟨none, pn⟩ env config = Except.error SerialError.NotConnected := rfl

theorem send_config_some (u : Unit) (pn : Option String) (env : UploadEnv) (config : String) :
    send_config ⟨some u, pn⟩ env config = sendConfigBody env config := rfl

theorem sendConfigBody_write_err (env : UploadEnv) (config : String) (e : SerialError)
    (hw : writeChunks (chunksOf ("<CFG>\n" ++ config ++ "\n<END>\n").data) env.writes 0 =
      Except.error e) :
    sendConfigBody env config = Except.error e := by
  unfold sendConfigBody
  dsimp only
  rw [hw]

theorem sendConfigBody_read_err (env : UploadEnv) (config : String) (cs : Nat) (e : SerialError)
    (hw : writeChunks (chunksOf ("<CFG>\n" ++ config ++ "\n<END>\n").data) env.writes 0 =
      Except.ok cs)
    (hr : readLoop env.reads "" false none = Except.error e) :
    sendConfigBody env config = Except.error e := by
  unfold sendConfigBody
  dsimp only
  rw [hw]
  dsimp only
  rw [hr]

theorem sendConfigBody_ok_shape (env : UploadEnv) (config : String) (cs : Nat)
    (resp0 : String) (saw : Bool) (nak : Option String)
    (hw : writeChunks (chunksOf ("<CFG>\n" ++ config ++ "\n<END>\n").data) env.writes 0 =
      Except.ok cs)
    (hr : readLoop env.reads "" false none = Except.ok (resp0, saw, nak)) :
    sendConfigBody env config =
      Except.ok (classifyOutcome ("<CFG>\n" ++ config ++ "\n<END>\n").length cs
        (strTake config 500) (if saw then drainLoop env.drainReads resp0 else resp0)
        saw nak) := by
  unfold sendConfigBody
  dsimp only
  rw [hw]
  dsimp only
  rw [hr]

theorem classifyOutcome_bytes (B C : Nat) (P resp : String) (saw : Bool)
    (nak : Option String) : (classifyOutcome B C P resp saw nak).bytes_sent = B := by
  unfold classifyOutcome
  split
  · rfl
  · split
    · rfl
    · split
      · rfl
      · rfl

theorem classifyOutcome_chunks (B C : Nat) (P resp : String) (saw : Bool)
    (nak : Option String) : (classifyOutcome B C P resp saw nak).chunks_sent = C := by
  unfold classifyOutcome
  split
  · rfl
  · split
    · rfl
    · split
      · rfl
      · rfl

theorem classifyOutcome_raw (B C : Nat) (P resp : String) (saw : Bool)
    (nak : Option String) : (classifyOutcome B C P resp saw nak).raw_response = resp := by
  unfold classifyOutcome
  split
  · rfl
  · split
    · rfl
    · split
      · rfl
      · rfl

theorem classifyOutcome_empty (B C : Nat) (P resp : String) (saw : Bool)
    (nak : Option String) (h : strTrim resp = "") :
    (classifyOutcome B C P resp saw nak).success = false ∧
    (classifyOutcome B C P resp saw nak).error_message = some noResponseMsg := by
  unfold classifyOutcome
  rw [if_pos h]
  exact ⟨rfl, rfl⟩

theorem classifyOutcome_nak (B C : Nat) (P resp : String) (saw : Bool)
    (nak : Option String) (h : ¬ strTrim resp = "") (line : String)
    (hn : nak = some line) :
    (classifyOutcome B C P resp saw nak).success = false ∧
    (classifyOutcome B C P resp saw nak).error_message = some line := by
  unfold classifyOutcome
  rw [if_neg h, hn]
  exact ⟨rfl, rfl⟩

theorem classifyOutcome_noack (B C : Nat) (P resp : String)
    (nak : Option String) (h : ¬ strTrim resp = "") (hn : nak = none) :
    (classifyOutcome B C P resp false nak).success = false ∧
    (classifyOutcome B C P resp false nak).error_message =
      some (noAckMsg (strTake resp 300)) := by
  unfold classifyOutcome
  rw [if_neg h, hn]
  exact ⟨rfl, rfl⟩

theorem classifyOutcome_success (B C : Nat) (P resp : String)
    (nak : Option String) (h : ¬ strTrim resp = "") (hn : nak = none) :
    (classifyOutcome B C P resp true nak).success = true ∧
    (classifyOutcome B C P resp true nak).error_message = none := by
  unfold classifyOutcome
  rw [if_neg h, hn]
  exact ⟨rfl, rfl⟩

/-- C1: whenever `send_config` reaches outcome classification (returns an
`UploadResult`), the outcome follows the priority order: empty or
whitespace-only final response is a failure with the no-response/timeout
message; otherwise a captured NAK line is a failure carrying exactly that
line; otherwise a missing ACK is a failure whose message carries a
300-character preview of the collected text; otherwise success with no
error message. -/
theorem send_config_outcome_priority (conn : SerialConnection) (env : UploadEnv)
    (config : String) (r : UploadResult)
    (h : send_config conn env config = Except.ok r) :
    ∃ resp ack nak,
      readLoop env.reads "" false none = Except.ok (resp, ack, nak) ∧
      r.raw_response = (if ack then drainLoop env.drainReads resp else resp) ∧
      (strTrim r.raw_response = "" →
        r.success = false ∧ r.error_message = some noResponseMsg) ∧
      (¬ strTrim r.raw_response = "" → ∀ line, nak = some line →
        r.success = false ∧ r.error_message = some line) ∧
      (¬ strTrim r.raw_response = "" → nak = none → ack = false →
        r.success = false ∧
        r.error_message = some (noAckMsg (strTake r.raw_response 300))) ∧
      (¬ strTrim r.raw_response = "" → nak = none → ack = true →
        r.success = true ∧ r.error_message = none) := by
  obtain ⟨p, pn⟩ := conn
  cases p with
  | none =>
      rw [send_config_none] at h
      exact absurd h (by simp)
  | some u =>
      rw [send_config_some] at h
      rcases writeChunks_cases (chunksOf ("<CFG>\n" ++ config ++ "\n<END>\n").data)
          env.writes 0 with ⟨cs, hw⟩ | ⟨m, hw⟩
      · rcases readLoop_cases env.reads "" false none with
          ⟨⟨resp0, saw, nak⟩, hr⟩ | ⟨m, hr⟩
        · rw [sendConfigBody_ok_shape env config cs resp0 saw nak hw hr] at h
          have heq := (Except.ok.inj h).symm
          subst heq
          refine ⟨resp0, saw, nak, hr, classifyOutcome_raw _ _ _ _ _ _, ?_, ?_, ?_, ?_⟩
          · intro he
            rw [classifyOutcome_raw] at he
            exact classifyOutcome_empty _ _ _ _ _ _ he
          · intro he line hline
            rw [classifyOutcome_raw] at he
            exact classifyOutcome_nak _ _ _ _ _ _ he line hline
          · intro he hn hak
            rw [classifyOutcome_raw] at he
            rw [classifyOutcome_raw]
            subst hak
            exact classifyOutcome_noack _ _ _ _ _ he hn
          · intro he hn hak
            rw [classifyOutcome_raw] at he
            subst hak
            exact classifyOutcome_success _ _ _ _ _ he hn
        · rw [sendConfigBody_read_err env config cs _ hw hr] at h
          exact absurd h (by simp)
      · rw [sendConfigBody_write_err env config _ hw] at h
        exact absurd h (by simp)

/-- Witness for C1 at a concrete ACK exchange: the classification lands
in the success case. -/
theorem send_config_outcome_priority_witness :
    (send_config cConnected ackEnv "x" = Except.ok r0Ack) ∧
    r0Ack.success = true ∧ r0Ack.error_message = none := by
  obtain ⟨resp, ack, nak, h1, h2, h3, h4, h5, h6⟩ :=
    send_config_outcome_priority cConnected ackEnv "x" r0Ack rfl
  have h0 : readLoop ackEnv.reads "" false none = Except.ok ("ACK\n", true, none) := rfl
  rw [h0] at h1
  have h1b := Except.ok.inj h1
  have e1 : resp = "ACK\n" := (congrArg (fun t => t.1) h1b).symm
  have e2 : ack = true := (congrArg (fun t => t.2.1) h1b).symm
  have e3 : nak = none := (congrArg (fun t => t.2.2) h1b).symm
  subst e1
  subst e2
  subst e3
  have hres := h6 (by decide) rfl rfl
  exact ⟨rfl, hres.1, hres.2⟩

/-- C2 counterexample: with a live connection, a failing chunk write
makes `send_config` return a hard `WriteError` — an error other than
`NotConnected` — refuting the claim that a connected upload can never
fail with a hard error. -/
theorem send_config_transport_error_counterexample :
    send_config cConnected failEnv "x" =
      Except.error (SerialError.WriteError "device unplugged") ∧
    SerialError.WriteError "device unplugged" ≠ SerialError.NotConnected :=
  ⟨rfl, by decide⟩

/-- C2 amended: without a connection `send_config` fails with
`NotConnected`; with a connection it always returns an `UploadOutcome`
unless a transport (write or read) error aborts it, in which case the
hard error is a `WriteError` or `ReadError` — protocol-level
disagreement (NAK, timeout, missing ACK) never raises a hard error. -/
theorem send_config_total_unless_transport (conn : SerialConnection) (env : UploadEnv)
    (config : String) :
    (conn.port = none →
      send_config conn env config = Except.error SerialError.NotConnected) ∧
    (∀ u, conn.port = some u →
      (∃ r, send_config conn env config = Except.ok r) ∨
      (∃ m, send_config conn env config = Except.error (SerialError.WriteError m)) ∨
      (∃ m, send_config conn env config = Except.error (SerialError.ReadError m))) := by
  obtain ⟨p, pn⟩ := conn
  constructor
  · intro hp
    have hp2 : p = none := hp
    subst hp2
    rfl
  · intro u hp
    have hp2 : p = some u := hp
    subst hp2
    rw [send_config_some]
    rcases writeChunks_cases (chunksOf ("<CFG>\n" ++ config ++ "\n<END>\n").data)
        env.writes 0 with ⟨cs, hw⟩ | ⟨m, hw⟩
    · rcases readLoop_cases env.reads "" false none with
        ⟨⟨resp0, saw, nak⟩, hr⟩ | ⟨m, hr⟩
      · exact Or.inl ⟨_, sendConfigBody_ok_shape env config cs resp0 saw nak hw hr⟩
      · exact Or.inr (Or.inr ⟨m, sendConfigBody_read_err env config cs _ hw hr⟩)
    · exact Or.inr (Or.inl ⟨m, sendConfigBody_write_err env config _ hw⟩)

/-- Witness for C2's amended theorem at a concrete connected upload. -/
theorem send_config_total_unless_transport_witness :
    (∃ r, send_config cConnected ackEnv "x" = Except.ok r) ∨
    (∃ m, send_config cConnected ackEnv "x" =
      Except.error (SerialError.WriteError m)) ∨
    (∃ m, send_config cConnected ackEnv "x" =
      Except.error (SerialError.ReadError m)) :=
  (send_config_total_unless_transport cConnected ackEnv "x").2 () rfl

/-- C3: every classified upload reports `bytes_sent` equal to the length
of the frame `<CFG>\n{payload}\n<END>\n`, which is the payload length
plus the fixed 13-byte overhead, and `chunks_sent` equal to the framed
length divided by 64 rounded up. -/
theorem send_config_framing (conn : SerialConnection) (env : UploadEnv)
    (config : String) (r : UploadResult)
    (h : send_config conn env config = Except.ok r) :
    r.bytes_sent = ("<CFG>\n" ++ config ++ "\n<END>\n").length ∧
    r.bytes_sent = config.length + 13 ∧
    r.chunks_sent = (config.length + 13 + 63) / 64 := by
  have hfull : ("<CFG>\n" ++ config ++ "\n<END>\n").length = config.length + 13 := by
    rw [String.length_append, String.length_append]
    have h6 : ("<CFG>\n" : String).length = 6 := rfl
    have h7 : ("\n<END>\n" : String).length = 7 := rfl
    omega
  obtain ⟨p, pn⟩ := conn
  cases p with
  | none =>
      rw [send_config_none] at h
      exact absurd h (by simp)
  | some u =>
      rw [send_config_some] at h
      rcases writeChunks_cases (chunksOf ("<CFG>\n" ++ config ++ "\n<END>\n").data)
          env.writes 0 with ⟨cs, hw⟩ | ⟨m, hw⟩
      · rcases readLoop_cases env.reads "" false none with
          ⟨⟨resp0, saw, nak⟩, hr⟩ | ⟨m, hr⟩
        · rw [sendConfigBody_ok_shape env config cs resp0 saw nak hw hr] at h
          have heq := (Except.ok.inj h).symm
          subst heq
          have hcs : cs = (chunksOf ("<CFG>\n" ++ config ++ "\n<END>\n").data).length := by
            have h2 := writeChunks_ok _ _ _ _ hw
            simpa using h2
          have hlen : (chunksOf ("<CFG>\n" ++ config ++ "\n<END>\n").data).length =
              (config.length + 13 + 63) / 64 := by
            rw [chunksOf_length]
            have hdata : ("<CFG>\n" ++ config ++ "\n<END>\n").data.length =
                ("<CFG>\n" ++ config ++ "\n<END>\n").length := rfl
            rw [hdata, hfull]
          refine ⟨classifyOutcome_bytes _ _ _ _ _ _, ?_, ?_⟩
          · rw [classifyOutcome_bytes]
            exact hfull
          · rw [classifyOutcome_chunks, hcs, hlen]
        · rw [sendConfigBody_read_err env config cs _ hw hr] at h
          exact absurd h (by simp)
      · rw [sendConfigBody_write_err env config _ hw] at h
        exact absurd h (by simp)

/-- Witness for C3: a 287-character payload frames to 300 bytes and is
sent in 5 chunks. -/
theorem send_config_framing_witness :
    (send_config cConnected ackEnv cfg287 = Except.ok r287) ∧
    r287.bytes_sent = 300 ∧ r287.chunks_sent = 5 := by
  have h : send_config cConnected ackEnv cfg287 = Except.ok r287 := rfl
  have h2 := send_config_framing cConnected ackEnv cfg287 r287 h
  refine ⟨h, ?_, ?_⟩
  · rw [h2.2.1]
    decide
  · rw [h2.2.2]
    decide
